import Mathlib

/-!
Verification of IFGO/IA_2025_Grupo1: profit simulation, feature windowing,
cross-validated training control flow, and the monthly mean-return test.

Float values that may be NaN are modelled as `Option ℚ` (`none` = NaN);
float arithmetic is idealised as exact rational arithmetic.
-/

/-- Python `round(x, 2)`: round to 2 decimal places, ties to even
(banker's rounding), modelled on exact rationals. -/
def round2 (q : ℚ) : ℚ :=
  let s : ℚ := q * 100
  let f : ℤ := Int.floor s
  let frac : ℚ := s - f
  let r : ℤ :=
    if frac < 1/2 then f
    else if frac > 1/2 then f + 1
    else if f % 2 = 0 then f else f + 1
  (r : ℚ) / 100

/-- One iteration of the loop body shared verbatim by `simulate_profit`
(src/src/modules/simulation.py lines 29-47) and `simulate_profit_series`
(lines 68-89): skip on any NaN among `today_real`, `tomorrow_real`,
`tomorrow_pred`; skip when either real price is at or below the
`min_price = 1.0` floor; trade only when `tomorrow_pred > today_real`;
reject the trade when `change = tomorrow_real / today_real > 10`;
otherwise multiply the balance by `change`. Every non-trading path
leaves the balance unchanged. -/
def profitStep (today_real tomorrow_real tomorrow_pred : Option ℚ)
    (balance : ℚ) : ℚ :=
  match today_real, tomorrow_real, tomorrow_pred with
  | some tr, some tmr, some tp =>
    if tr ≤ 1 ∨ tmr ≤ 1 then balance
    else if tp > tr then
      let change := tmr / tr
      if change > 10 then balance else balance * change
    else balance
  | _, _, _ => balance

/-- The loop body at index `i`: the source reads `y_true[i]`,
`y_true[i + 1]` and `y_pred[i + 1]`. -/
def profitStepAt (y_true y_pred : List (Option ℚ)) (balance : ℚ) (i : ℕ) : ℚ :=
  profitStep (y_true.getD i none) (y_true.getD (i + 1) none)
    (y_pred.getD (i + 1) none) balance

/-- The pre-rounding final balance of `simulate_profit`: fold the loop body
over `i in range(len(y_true) - 1)`. -/
def simulate_profit_loop (y_true y_pred : List (Option ℚ))
    (initial_balance : ℚ) : ℚ :=
  (List.range (y_true.length - 1)).foldl (profitStepAt y_true y_pred)
    initial_balance

/-- `simulate_profit` (src/src/modules/simulation.py lines 9-49):
runs the loop starting from `initial_balance` and returns
`round(balance, 2)`. -/
def simulate_profit (y_true y_pred : List (Option ℚ))
    (initial_balance : ℚ) : ℚ :=
  round2 (simulate_profit_loop y_true y_pred initial_balance)

/-- Accumulate the day-by-day balance list: the starting balance, then one
entry after every loop index, each new balance obtained from the previous
by the step function. -/
def runSeries (f : ℚ → ℕ → ℚ) (b : ℚ) : List ℕ → List ℚ
  | [] => [b]
  | i :: is => b :: runSeries f (f b i) is

/-- `simulate_profit_series` (src/src/modules/simulation.py lines 52-91):
`balances = [initial_balance]`, then for each `i in range(len(y_true) - 1)`
the same step logic as `simulate_profit`, appending the (possibly updated)
balance on every path. -/
def simulate_profit_series (y_true y_pred : List (Option ℚ))
    (initial_balance : ℚ) : List ℚ :=
  runSeries (profitStepAt y_true y_pred) initial_balance
    (List.range (y_true.length - 1))

/-- `simulate_hold_strategy` (src/src/modules/simulation.py lines 94-111):
with fewer than 2 price points return `[initial_balance]`; otherwise
`quantidade = initial_balance / y_true[0]` and the trajectory is the
elementwise product `quantidade * y_true`. -/
def simulate_hold_strategy (y_true : List ℚ)
    (initial_balance : ℚ) : List ℚ :=
  if y_true.length < 2 then [initial_balance]
  else
    let preco_inicial := y_true.getD 0 0
    let quantidade := initial_balance / preco_inicial
    y_true.map (fun p => quantidade * p)

/-! ### Feature windowing (src/src/modules/models.py) -/

/-- The pandas column `lag_i = df['close'].shift(i)` at row `t`
(src/src/modules/models.py line 33): the close at `t - i` when `t ≥ i`,
NaN otherwise. -/
def lagVal (close : List (Option ℚ)) (t i : ℕ) : Option ℚ :=
  if i ≤ t then close.getD (t - i) none else none

/-- `df.dropna()` keeps row `t` iff the `close` entry and all `window`
lag columns at `t` are non-NaN. -/
def rowComplete (close : List (Option ℚ)) (window t : ℕ) : Bool :=
  (close.getD t none).isSome
    && (List.range window).all (fun j => (lagVal close t (j + 1)).isSome)

/-- `prepare_features` (src/src/modules/models.py lines 19-40): add lag
columns `lag_1 .. lag_window` of the close series, drop rows with any NaN,
and return the lag matrix `X` (most recent lag first) paired with the close
column `y` of the surviving rows. -/
def prepare_features (close : List (Option ℚ)) (window : ℕ) :
    List (List ℚ) × List ℚ :=
  let kept := (List.range close.length).filter
    (fun t => rowComplete close window t)
  (kept.map (fun t =>
      (List.range window).map (fun j => (lagVal close t (j + 1)).getD 0)),
    kept.map (fun t => (close.getD t none).getD 0))

/-! ### Cross-validated training control flow (src/src/modules/models.py) -/

/-- `mse < best_score` with `best_score` starting at `float('inf')`:
`none` represents the infinite initial score, in which case any candidate
wins. -/
def beats {α : Type} (best : Option (α × ℚ)) (mse : ℚ) : Bool :=
  match best with
  | none => true
  | some (_, s) => decide (mse < s)

/-- The fold loop of `train_mlp_model` (src/src/modules/models.py lines
76-92): each fold either raises (the fitting/scoring outcome is external
input, `Except.error` = an exception escaping `model.fit`/`predict`) or
yields a candidate model with its validation MSE; a raised exception
aborts the loop, otherwise the lowest-MSE candidate so far is kept. -/
def mlpFoldLoop {α : Type} :
    List (Except Unit (α × ℚ)) → Option (α × ℚ) →
      Except Unit (Option (α × ℚ))
  | [], best => .ok best
  | .error e :: _, _ => .error e
  | .ok (m, mse) :: rest, best =>
      mlpFoldLoop rest (if beats best mse then some (m, mse) else best)

/-- `train_mlp_model` (src/src/modules/models.py lines 58-98): run the
fold loop inside `try`; on completion return the best model, on any
exception return `None`. -/
def train_mlp_model {α : Type}
    (foldResults : List (Except Unit (α × ℚ))) : Option α :=
  match mlpFoldLoop foldResults none with
  | .ok best => best.map Prod.fst
  | .error _ => none

/-! ### Monthly mean-return hypothesis test
(src/src/modules/hypothesis_tests.py lines 66-134)

Asset data is the date-sorted list of (month key, close) rows; NaN-able
statistics are `Option ℚ` (`none` = NaN). The external scipy primitives
(`stats.shapiro`, `stats.t.cdf`) and the irrational square root are
parameters. -/

/-- `df.groupby('month')['close'].last()` on date-sorted rows: the last
close of each run of equal consecutive month keys. -/
def monthlyLast : List (ℕ × ℚ) → List ℚ
  | [] => []
  | (m, c) :: rest =>
    match rest with
    | [] => [c]
    | (m2, _) :: _ =>
      if m = m2 then monthlyLast rest else c :: monthlyLast rest

/-- `pct_change() * 100` continuing from `prev`; the leading NaN of
`pct_change` is already dropped by starting at the second element. -/
def pctChangeFrom (prev : ℚ) : List ℚ → List ℚ
  | [] => []
  | c :: cs => ((c - prev) / prev * 100) :: pctChangeFrom c cs

/-- `monthly_close.pct_change().dropna() * 100` then `[-6:]`: the monthly
percentage returns restricted to the last 6 observations. -/
def monthlyReturns6 (rows : List (ℕ × ℚ)) : List ℚ :=
  let r := match monthlyLast rows with
    | [] => []
    | c0 :: rest => pctChangeFrom c0 rest
  r.drop (r.length - 6)

/-- Series mean. -/
def qmean (l : List ℚ) : ℚ := l.sum / l.length

/-- Series variance with `ddof = 1`. -/
def qvar (l : List ℚ) : ℚ :=
  (l.map (fun x => (x - qmean l) ^ 2)).sum / ((l.length : ℚ) - 1)

/-- One asset of `perform_mean_return_monthly_test`: fewer than 3 monthly
returns yields the `(NaN, NaN, NaN, False)` marker; otherwise the
Shapiro-Wilk gate decides between the one-sided t-test result and the
non-normal `(mean, NaN, NaN, False)` result. -/
def monthlyTestOne (shapiro : List ℚ → ℚ) (tcdf : ℚ → ℕ → ℚ)
    (sqrtQ : ℚ → ℚ) (threshold alpha : ℚ) (rows : List (ℕ × ℚ)) :
    Option ℚ × Option ℚ × Option ℚ × Bool :=
  let monthly_returns := monthlyReturns6 rows
  if monthly_returns.length < 3 then (none, none, none, false)
  else
    let shapiro_p := shapiro monthly_returns
    if alpha ≤ shapiro_p then
      let sample_mean := qmean monthly_returns
      let sample_std := sqrtQ (qvar monthly_returns)
      let n := monthly_returns.length
      let t_stat := (sample_mean - threshold) / (sample_std / sqrtQ n)
      let p_value := tcdf t_stat (n - 1)
      (some sample_mean, some t_stat, some p_value, decide (p_value < alpha))
    else
      (some (qmean monthly_returns), none, none, false)

/-- `perform_mean_return_monthly_test`: one result tuple per asset, keyed
by the asset symbol, every asset processed. -/
def perform_mean_return_monthly_test (shapiro : List ℚ → ℚ)
    (tcdf : ℚ → ℕ → ℚ) (sqrtQ : ℚ → ℚ) (threshold alpha : ℚ)
    (data : List (String × List (ℕ × ℚ))) :
    List (String × (Option ℚ × Option ℚ × Option ℚ × Bool)) :=
  data.map (fun cd =>
    (cd.1, monthlyTestOne shapiro tcdf sqrtQ threshold alpha cd.2))

-- scratch checks
example : profitStep (some 2) (some 4) (some 3) 10 = 20 := by
  norm_num [profitStep]
example : profitStep (some 2) (some 30) (some 3) 10 = 10 := by
  norm_num [profitStep]
example : profitStep (some 2) (some 4) none 10 = 10 := by
  norm_num [profitStep]
example :
    simulate_profit_series [some 2, some 4, some 8] [some 0, some 3, some 5] 1
      = [1, 2, 4] := by
  norm_num [simulate_profit_series, runSeries, profitStepAt, profitStep,
    List.range_succ]
example :
    simulate_profit [some 2, some 4, some 8] [some 0, some 3, some 5] 1
      = 4 := by
  norm_num [simulate_profit, simulate_profit_loop, profitStepAt, profitStep,
    round2, List.range_succ]
example : simulate_hold_strategy [2, 4, 6] 1000 = [1000, 2000, 3000] := by
  norm_num [simulate_hold_strategy]
example : round2 (1/3) = 33/100 := by norm_num [round2]
example : round2 (1/8) = 12/100 := by norm_num [round2]
example : round2 (3/8) = 38/100 := by norm_num [round2]

/-! ### Basic facts about the balance accumulator -/

lemma runSeries_length (f : ℚ → ℕ → ℚ) (b : ℚ) (is : List ℕ) :
    (runSeries f b is).length = is.length + 1 := by
  induction is generalizing b with
  | nil => rfl
  | cons i is ih => simp [runSeries, ih]

lemma runSeries_getD_zero (f : ℚ → ℕ → ℚ) (b : ℚ) (is : List ℕ) :
    (runSeries f b is).getD 0 0 = b := by
  cases is <;> rfl

lemma runSeries_getLastD (f : ℚ → ℕ → ℚ) (b d : ℚ) (is : List ℕ) :
    (runSeries f b is).getLastD d = is.foldl f b := by
  induction is generalizing b d with
  | nil => rfl
  | cons i is ih =>
    show (b :: runSeries f (f b i) is).getLastD d = _
    rw [List.getLastD_cons, ih]
    rfl

lemma runSeries_getD_succ (f : ℚ → ℕ → ℚ) (b : ℚ) (is : List ℕ) (k : ℕ)
    (hk : k < is.length) :
    (runSeries f b is).getD (k + 1) 0
      = f ((runSeries f b is).getD k 0) (is.getD k 0) := by
  induction is generalizing b k with
  | nil => exact absurd hk (Nat.not_lt_zero k)
  | cons i is ih =>
    cases k with
    | zero =>
      show (runSeries f (f b i) is).getD 0 0 = f ((b :: _).getD 0 0) _
      rw [runSeries_getD_zero]
      rfl
    | succ k =>
      have hk' : k < is.length := by simpa using hk
      show (runSeries f (f b i) is).getD (k + 1) 0 = _
      rw [ih (f b i) k hk']
      rfl

lemma runSeries_mem_pres (P : ℚ → Prop) (f : ℚ → ℕ → ℚ) (is : List ℕ)
    (b : ℚ) (hf : ∀ c i, i ∈ is → P c → P (f c i)) (hb : P b) :
    ∀ x ∈ runSeries f b is, P x := by
  induction is generalizing b with
  | nil =>
    intro x hx
    simp only [runSeries, List.mem_singleton] at hx
    exact hx ▸ hb
  | cons i is ih =>
    intro x hx
    simp only [runSeries, List.mem_cons] at hx
    rcases hx with rfl | hx
    · exact hb
    · exact ih (f b i)
        (fun c j hj hc => hf c j (List.mem_cons_of_mem i hj) hc)
        (hf b i (List.mem_cons_self i is) hb) x hx

lemma foldl_mem_pres (P : ℚ → Prop) (f : ℚ → ℕ → ℚ) (is : List ℕ)
    (b : ℚ) (hf : ∀ c i, i ∈ is → P c → P (f c i)) (hb : P b) :
    P (is.foldl f b) := by
  induction is generalizing b with
  | nil => exact hb
  | cons i is ih =>
    exact ih (f b i)
      (fun c j hj hc => hf c j (List.mem_cons_of_mem i hj) hc)
      (hf b i (List.mem_cons_self i is) hb)

/-- **C1.** For equal-length inputs and any initial balance, the scalar
simulation equals the 2-decimal rounding of the last entry of the
trajectory simulation: both run the same step fold, the scalar mode
rounding the result and the trajectory mode recording it. -/
theorem simulate_profit_eq_round2_getLastD_series
    (y_true y_pred : List (Option ℚ)) (b : ℚ)
    (hlen : y_true.length = y_pred.length) :
    simulate_profit y_true y_pred b
      = round2 ((simulate_profit_series y_true y_pred b).getLastD 0) := by
  unfold simulate_profit simulate_profit_series simulate_profit_loop
  rw [runSeries_getLastD]

/-- Witness for C1 at a concrete input. -/
theorem simulate_profit_eq_round2_getLastD_series_witness :
    simulate_profit [some 2, some 4, some 8] [some 0, some 3, some 5] 1
      = round2
        ((simulate_profit_series [some 2, some 4, some 8]
          [some 0, some 3, some 5] 1).getLastD 0) :=
  simulate_profit_eq_round2_getLastD_series
    [some 2, some 4, some 8] [some 0, some 3, some 5] 1 rfl

/-- **C7.** The trajectory starts with the initial balance and has exactly
`1 + (len(y_true) - 1)` entries: one starting value plus one entry appended
per adjacent-day step, on every path through the step logic. -/
theorem simulate_profit_series_length_head
    (y_true y_pred : List (Option ℚ)) (b : ℚ)
    (hlen : y_pred.length = y_true.length) :
    (simulate_profit_series y_true y_pred b).length
        = 1 + (y_true.length - 1) ∧
      (simulate_profit_series y_true y_pred b).getD 0 0 = b := by
  unfold simulate_profit_series
  refine ⟨?_, runSeries_getD_zero _ _ _⟩
  rw [runSeries_length, List.length_range]
  omega

/-- Witness for C7 at a concrete input. -/
theorem simulate_profit_series_length_head_witness :
    (simulate_profit_series [some 2, some 4, none] [some 0, some 3, none]
        7).length = 1 + (3 - 1) ∧
      (simulate_profit_series [some 2, some 4, none] [some 0, some 3, none]
        7).getD 0 0 = 7 :=
  simulate_profit_series_length_head
    [some 2, some 4, none] [some 0, some 3, none] 7 rfl

/-! ### Step-level facts about the shared trade logic -/

lemma profitStep_pos (tr tmr tp : Option ℚ) (b : ℚ) (hb : 0 < b) :
    0 < profitStep tr tmr tp b := by
  rcases tr with _ | tr
  · exact hb
  rcases tmr with _ | tmr
  · exact hb
  rcases tp with _ | tp
  · exact hb
  show 0 < if tr ≤ 1 ∨ tmr ≤ 1 then b
    else if tp > tr then (if tmr / tr > 10 then b else b * (tmr / tr)) else b
  by_cases hfloor : tr ≤ 1 ∨ tmr ≤ 1
  · rw [if_pos hfloor]
    exact hb
  · rw [if_neg hfloor]
    push_neg at hfloor
    have hch : (0 : ℚ) < tmr / tr :=
      div_pos (lt_trans zero_lt_one hfloor.2) (lt_trans zero_lt_one hfloor.1)
    by_cases hpred : tp > tr
    · rw [if_pos hpred]
      by_cases h10 : tmr / tr > 10
      · rw [if_pos h10]
        exact hb
      · rw [if_neg h10]
        exact mul_pos hb hch
    · rw [if_neg hpred]
      exact hb

lemma profitStep_const (v tp : Option ℚ) (b : ℚ) :
    profitStep v v tp b = b := by
  rcases v with _ | c
  · rcases tp with _ | p <;> rfl
  rcases tp with _ | p
  · rfl
  show (if c ≤ 1 ∨ c ≤ 1 then b
    else if p > c then (if c / c > 10 then b else b * (c / c)) else b) = b
  by_cases hc : c ≤ 1
  · rw [if_pos (Or.inl hc)]
  · rw [if_neg (by tauto)]
    by_cases hp : p > c
    · rw [if_pos hp]
      have hc0 : (c : ℚ) ≠ 0 :=
        ne_of_gt (lt_trans zero_lt_one (not_le.mp hc))
      rw [div_self hc0]
      norm_num
    · rw [if_neg hp]

/-- **C10.** With a positive initial balance every trajectory entry and the
pre-rounding scalar balance stay strictly positive: a trade only executes
with both real prices strictly above the `1.0` floor, so every applied
multiplier `tomorrow_real / today_real` is strictly positive. -/
theorem simulate_profit_balances_pos
    (y_true y_pred : List (Option ℚ)) (b : ℚ) (hb : 0 < b) :
    (∀ x ∈ simulate_profit_series y_true y_pred b, 0 < x) ∧
      0 < simulate_profit_loop y_true y_pred b := by
  constructor
  · exact runSeries_mem_pres (0 < ·) _ _ b
      (fun c i _ hc => profitStep_pos _ _ _ c hc) hb
  · exact foldl_mem_pres (0 < ·) _ _ b
      (fun c i _ hc => profitStep_pos _ _ _ c hc) hb

/-- Witness for C10 at a concrete input. -/
theorem simulate_profit_balances_pos_witness :
    (0 : ℚ) < 5 ∧
      0 < simulate_profit_loop [some 3, some 2] [some 9, some 9] 5 :=
  ⟨by norm_num,
    (simulate_profit_balances_pos [some 3, some 2] [some 9, some 9] 5
      (by norm_num)).2⟩

/-- **C4.** On a constant true-price series (each day equal to the next,
NaN days included) the scalar simulation returns the rounded initial
balance and every trajectory entry equals the initial balance: each step
either skips (NaN, price floor, no signal) or trades with
`change = c / c = 1`. -/
theorem constant_series_keeps_initial_balance
    (y_true y_pred : List (Option ℚ)) (b : ℚ)
    (hconst : ∀ i, i + 1 < y_true.length →
      y_true.getD i none = y_true.getD (i + 1) none) :
    simulate_profit y_true y_pred b = round2 b ∧
      ∀ x ∈ simulate_profit_series y_true y_pred b, x = b := by
  have hstep : ∀ (c : ℚ) (i : ℕ), i ∈ List.range (y_true.length - 1) →
      c = b → profitStepAt y_true y_pred c i = b := by
    intro c i hi hc
    subst hc
    have hi' : i + 1 < y_true.length := by
      have := List.mem_range.mp hi
      omega
    unfold profitStepAt
    rw [hconst i hi']
    exact profitStep_const _ _ _
  constructor
  · unfold simulate_profit simulate_profit_loop
    rw [foldl_mem_pres (· = b) _ _ b hstep rfl]
  · exact runSeries_mem_pres (· = b) _ _ b hstep rfl

/-- Witness for C4 at a concrete input. -/
theorem constant_series_keeps_initial_balance_witness :
    simulate_profit [some 4, some 4, some 4] [some 9, some 9, some 9] 3
        = round2 3 ∧
      ∀ x ∈ simulate_profit_series [some 4, some 4, some 4]
        [some 9, some 9, some 9] 3, x = 3 :=
  constant_series_keeps_initial_balance
    [some 4, some 4, some 4] [some 9, some 9, some 9] 3
    (by
      intro i hi
      simp only [List.length_cons, List.length_nil] at hi
      have h01 : i = 0 ∨ i = 1 := by omega
      rcases h01 with rfl | rfl <;> rfl)

lemma getD_range (n k : ℕ) (hk : k < n) : (List.range n).getD k 0 = k := by
  rw [List.getD_eq_getElem?_getD, List.getElem?_range hk]
  rfl

/-- **C2.** A step whose real single-day change `tomorrow_real / today_real`
exceeds 10 (both prices above the floor, non-NaN) never changes the
balance, whatever the prediction: at the step level, and within any
trajectory run at any index carrying those prices. -/
theorem anomalous_change_step_keeps_balance
    (tr tmr : ℚ) (htr : 1 < tr) (htmr : 1 < tmr) (hch : tmr / tr > 10) :
    (∀ (tp : Option ℚ) (b : ℚ), profitStep (some tr) (some tmr) tp b = b) ∧
      ∀ (y_true y_pred : List (Option ℚ)) (b0 : ℚ) (i : ℕ),
        i + 1 < y_true.length →
        y_true.getD i none = some tr →
        y_true.getD (i + 1) none = some tmr →
        (simulate_profit_series y_true y_pred b0).getD (i + 1) 0
          = (simulate_profit_series y_true y_pred b0).getD i 0 := by
  have hstep : ∀ (tp : Option ℚ) (b : ℚ),
      profitStep (some tr) (some tmr) tp b = b := by
    intro tp b
    rcases tp with _ | p
    · rfl
    show (if tr ≤ 1 ∨ tmr ≤ 1 then b
      else if p > tr then (if tmr / tr > 10 then b else b * (tmr / tr))
      else b) = b
    rw [if_neg (by push_neg; exact ⟨htr, htmr⟩)]
    by_cases hp : p > tr
    · rw [if_pos hp, if_pos hch]
    · rw [if_neg hp]
  refine ⟨hstep, ?_⟩
  intro y_true y_pred b0 i hi h1 h2
  unfold simulate_profit_series
  have hk : i < (List.range (y_true.length - 1)).length := by
    rw [List.length_range]
    omega
  rw [runSeries_getD_succ _ _ _ i hk, getD_range _ i (by omega)]
  unfold profitStepAt
  rw [h1, h2, hstep]

/-- Witness for C2 at a concrete input. -/
theorem anomalous_change_step_keeps_balance_witness :
    profitStep (some 2) (some 30) (some 7) 5 = 5 :=
  (anomalous_change_step_keeps_balance 2 30 (by norm_num) (by norm_num)
    (by norm_num)).1 (some 7) 5

/-- **C3.** A step where the prediction does not exceed today's real price
(`tomorrow_pred ≤ today_real`, both non-NaN) leaves the balance unchanged:
no trade happens, at the step level and within any trajectory run at any
index carrying that prediction and price. -/
theorem no_signal_step_keeps_balance
    (tr p : ℚ) (hp : p ≤ tr) :
    (∀ (tmr : Option ℚ) (b : ℚ), profitStep (some tr) tmr (some p) b = b) ∧
      ∀ (y_true y_pred : List (Option ℚ)) (b0 : ℚ) (i : ℕ),
        i + 1 < y_true.length →
        y_true.getD i none = some tr →
        y_pred.getD (i + 1) none = some p →
        (simulate_profit_series y_true y_pred b0).getD (i + 1) 0
          = (simulate_profit_series y_true y_pred b0).getD i 0 := by
  have hstep : ∀ (tmr : Option ℚ) (b : ℚ),
      profitStep (some tr) tmr (some p) b = b := by
    intro tmr b
    rcases tmr with _ | t
    · rfl
    show (if tr ≤ 1 ∨ t ≤ 1 then b
      else if p > tr then (if t / tr > 10 then b else b * (t / tr))
      else b) = b
    by_cases hfloor : tr ≤ 1 ∨ t ≤ 1
    · rw [if_pos hfloor]
    · rw [if_neg hfloor, if_neg (not_lt.mpr hp)]
  refine ⟨hstep, ?_⟩
  intro y_true y_pred b0 i hi h1 h2
  unfold simulate_profit_series
  have hk : i < (List.range (y_true.length - 1)).length := by
    rw [List.length_range]
    omega
  rw [runSeries_getD_succ _ _ _ i hk, getD_range _ i (by omega)]
  unfold profitStepAt
  rw [h1, h2, hstep]

/-- Witness for C3 at a concrete input. -/
theorem no_signal_step_keeps_balance_witness :
    profitStep (some 5) (some 3) (some 4) 7 = 7 :=
  (no_signal_step_keeps_balance 5 4 (by norm_num)).1 (some 3) 7

/-- **C6.** The buy-and-hold baseline: with at least 2 price points and a
nonzero first price, the trajectory has the series length and entry `i`
equals `(initial_balance / y_true[0]) * y_true[i]`; with fewer than 2
points it is the single-element trajectory `[initial_balance]`. -/
theorem simulate_hold_strategy_spec (y_true : List ℚ) (b : ℚ) :
    (2 ≤ y_true.length → y_true.getD 0 0 ≠ 0 →
      (simulate_hold_strategy y_true b).length = y_true.length ∧
        ∀ i, i < y_true.length →
          (simulate_hold_strategy y_true b).getD i 0
            = b / y_true.getD 0 0 * y_true.getD i 0) ∧
      (y_true.length < 2 → simulate_hold_strategy y_true b = [b]) := by
  constructor
  · intro h2 _
    unfold simulate_hold_strategy
    rw [if_neg (by omega)]
    refine ⟨List.length_map _ _, ?_⟩
    intro i hi
    rw [List.getD_eq_getElem?_getD, List.getElem?_map,
      List.getElem?_eq_getElem (by simpa using hi)]
    simp only [Option.map_some', Option.getD_some]
    rw [List.getD_eq_getElem?_getD y_true i, List.getElem?_eq_getElem hi,
      Option.getD_some]
  · intro h2
    unfold simulate_hold_strategy
    rw [if_pos h2]

/-- Witness for C6 at a concrete input. -/
theorem simulate_hold_strategy_spec_witness :
    (simulate_hold_strategy [(2 : ℚ), 4, 6] 1000).getD 1 0
      = 1000 / ([(2 : ℚ), 4, 6].getD 0 0) * ([(2 : ℚ), 4, 6].getD 1 0) :=
  ((simulate_hold_strategy_spec [2, 4, 6] 1000).1 (by decide)
    (by norm_num)).2 1 (by decide)

lemma getD_map_some (cs : List ℚ) (k : ℕ) (hk : k < cs.length) :
    (cs.map some).getD k none = some (cs.getD k 0) := by
  rw [List.getD_eq_getElem?_getD (cs.map some) k, List.getElem?_map,
    List.getElem?_eq_getElem hk, List.getD_eq_getElem?_getD cs k,
    List.getElem?_eq_getElem hk]
  rfl

lemma rowComplete_map_some (cs : List ℚ) (window t : ℕ)
    (ht : t < cs.length) :
    rowComplete (cs.map some) window t = decide (window ≤ t) := by
  unfold rowComplete
  rw [getD_map_some cs t ht]
  by_cases h : window ≤ t
  · rw [decide_eq_true h]
    simp only [Option.isSome_some, Bool.true_and, List.all_eq_true,
      List.mem_range]
    intro j hj
    unfold lagVal
    rw [if_pos (by omega), getD_map_some cs (t - (j + 1)) (by omega)]
    rfl
  · rw [decide_eq_false h]
    simp only [Option.isSome_some, Bool.true_and]
    rw [List.all_eq_false]
    refine ⟨window - 1, List.mem_range.mpr (by omega), ?_⟩
    unfold lagVal
    rw [if_neg (by omega)]
    simp

lemma filter_range_le (n w : ℕ) :
    (List.range n).filter (fun t => decide (w ≤ t))
      = (List.range (n - w)).map (fun i => w + i) := by
  induction n with
  | zero => simp
  | succ n ih =>
    rw [List.range_succ, List.filter_append, ih]
    by_cases h : w ≤ n
    · have h1 : n + 1 - w = (n - w) + 1 := by omega
      have h2 : w + (n - w) = n := by omega
      rw [List.filter_cons_of_pos (by simpa using h), List.filter_nil, h1,
        List.range_succ, List.map_append, List.map_cons, List.map_nil, h2]
    · have h1 : n + 1 - w = n - w := by omega
      rw [List.filter_cons_of_neg (by simpa using h), List.filter_nil,
        List.append_nil, h1]

/-- **C5.** On a fully observed close series of length `L` with
`window ≥ 1`, `prepare_features` returns exactly `L - window` rows
(`ℕ`-truncated, so empty when `window ≥ L`); row `i`, most recent lag
first, is `[close[i+window-1], ..., close[i]]` and target `i` is
`close[i+window]`. The returned rows are NaN-free by construction. -/
theorem prepare_features_spec (cs : List ℚ) (window : ℕ)
    (hw : 1 ≤ window) :
    (prepare_features (cs.map some) window).1.length
        = cs.length - window ∧
      (prepare_features (cs.map some) window).2.length
          = cs.length - window ∧
      (prepare_features (cs.map some) window).1
          = (List.range (cs.length - window)).map (fun i =>
              (List.range window).map
                (fun j => cs.getD (i + window - 1 - j) 0)) ∧
      (prepare_features (cs.map some) window).2
          = (List.range (cs.length - window)).map
              (fun i => cs.getD (i + window) 0) := by
  have hkept : (List.range (cs.map some).length).filter
      (fun t => rowComplete (cs.map some) window t)
      = (List.range (cs.length - window)).map (fun i => window + i) := by
    rw [List.length_map]
    rw [List.filter_congr (fun t ht =>
      rowComplete_map_some cs window t (List.mem_range.mp ht))]
    exact filter_range_le cs.length window
  have hX : (prepare_features (cs.map some) window).1
      = (List.range (cs.length - window)).map (fun i =>
          (List.range window).map
            (fun j => cs.getD (i + window - 1 - j) 0)) := by
    show ((List.range (cs.map some).length).filter
        (fun t => rowComplete (cs.map some) window t)).map _ = _
    rw [hkept, List.map_map]
    refine List.map_congr_left ?_
    intro i hi
    have hi' : i < cs.length - window := List.mem_range.mp hi
    show (List.range window).map
        (fun j => (lagVal (cs.map some) (window + i) (j + 1)).getD 0) = _
    refine List.map_congr_left ?_
    intro j hj
    have hj' : j < window := List.mem_range.mp hj
    unfold lagVal
    rw [if_pos (by omega),
      getD_map_some cs (window + i - (j + 1)) (by omega)]
    have hidx : window + i - (j + 1) = i + window - 1 - j := by omega
    rw [hidx]
    rfl
  have hY : (prepare_features (cs.map some) window).2
      = (List.range (cs.length - window)).map
          (fun i => cs.getD (i + window) 0) := by
    show ((List.range (cs.map some).length).filter
        (fun t => rowComplete (cs.map some) window t)).map _ = _
    rw [hkept, List.map_map]
    refine List.map_congr_left ?_
    intro i hi
    have hi' : i < cs.length - window := List.mem_range.mp hi
    show ((cs.map some).getD (window + i) none).getD 0 = _
    rw [getD_map_some cs (window + i) (by omega)]
    have hidx : window + i = i + window := by omega
    rw [hidx]
    rfl
  refine ⟨?_, ?_, hX, hY⟩
  · rw [hX, List.length_map, List.length_range]
  · rw [hY, List.length_map, List.length_range]

/-- Witness for C5 at the spec's fixture-style input. -/
theorem prepare_features_spec_witness :
    (prepare_features ([(100 : ℚ), 102, 105, 106].map some) 3).1
      = (List.range (4 - 3)).map (fun i =>
          (List.range 3).map
            (fun j => [(100 : ℚ), 102, 105, 106].getD (i + 3 - 1 - j) 0)) :=
  (prepare_features_spec [100, 102, 105, 106] 3 (by norm_num)).2.2.1

lemma mlpFoldLoop_error {α : Type} (l : List (Except Unit (α × ℚ)))
    (he : Except.error () ∈ l) (best : Option (α × ℚ)) :
    mlpFoldLoop l best = .error () := by
  induction l generalizing best with
  | nil => cases he
  | cons r rest ih =>
    rcases r with e | p
    · cases e
      rfl
    · rcases List.mem_cons.mp he with h | h
      · cases h
      · exact ih h _

/-- **C8.** If fitting or scoring any fold raises, `train_mlp_model`
returns no model: the exception aborts the fold loop and the surrounding
handler returns `None`, discarding any candidate selected by earlier
successful folds. -/
theorem train_mlp_model_none_of_fold_error {α : Type}
    (foldResults : List (Except Unit (α × ℚ)))
    (he : Except.error () ∈ foldResults) :
    train_mlp_model foldResults = none := by
  unfold train_mlp_model
  rw [mlpFoldLoop_error foldResults he none]

/-- Witness for C8: an earlier successful fold does not survive a later
exception. -/
theorem train_mlp_model_none_of_fold_error_witness :
    train_mlp_model
      [Except.ok ((1 : ℕ), (5 : ℚ)), Except.error (), Except.ok (2, 3)]
      = none :=
  train_mlp_model_none_of_fold_error
    [Except.ok ((1 : ℕ), (5 : ℚ)), Except.error (), Except.ok (2, 3)]
    (by simp)

/-- **C9.** The monthly test records every asset: the result list has one
entry per asset with the same key in the same position, and any asset with
fewer than 3 monthly return observations receives the explicit undefined
marker (NaN mean, NaN t-statistic, NaN p-value, `reject_H0 = False`)
instead of an error, so the remaining assets are still processed. -/
theorem monthly_test_insufficient_data_marker (shapiro : List ℚ → ℚ)
    (tcdf : ℚ → ℕ → ℚ) (sqrtQ : ℚ → ℚ) (threshold alpha : ℚ)
    (data : List (String × List (ℕ × ℚ))) :
    (perform_mean_return_monthly_test shapiro tcdf sqrtQ threshold alpha
        data).length = data.length ∧
      ∀ i, i < data.length →
        (perform_mean_return_monthly_test shapiro tcdf sqrtQ threshold
            alpha data).getD i ("", none, none, none, false)
          = ((data.getD i ("", [])).1,
              monthlyTestOne shapiro tcdf sqrtQ threshold alpha
                (data.getD i ("", [])).2) ∧
          ((monthlyReturns6 (data.getD i ("", [])).2).length < 3 →
            ((perform_mean_return_monthly_test shapiro tcdf sqrtQ threshold
                alpha data).getD i ("", none, none, none, false)).2
              = (none, none, none, false)) := by
  refine ⟨List.length_map _ _, ?_⟩
  intro i hi
  have hgetD : (perform_mean_return_monthly_test shapiro tcdf sqrtQ
      threshold alpha data).getD i ("", none, none, none, false)
      = ((data.getD i ("", [])).1,
          monthlyTestOne shapiro tcdf sqrtQ threshold alpha
            (data.getD i ("", [])).2) := by
    unfold perform_mean_return_monthly_test
    rw [List.getD_eq_getElem?_getD, List.getElem?_map,
      List.getElem?_eq_getElem hi]
    simp only [Option.map_some', Option.getD_some]
    rw [List.getD_eq_getElem?_getD data i, List.getElem?_eq_getElem hi]
    rfl
  refine ⟨hgetD, ?_⟩
  intro hlt
  rw [hgetD]
  show monthlyTestOne shapiro tcdf sqrtQ threshold alpha
      (data.getD i ("", [])).2 = (none, none, none, false)
  unfold monthlyTestOne
  rw [if_pos hlt]

/-- Witness for C9: one short asset gets the marker while a later asset is
still present. -/
theorem monthly_test_insufficient_data_marker_witness :
    ((perform_mean_return_monthly_test (fun _ => 0) (fun _ _ => 0)
        (fun _ => 0) (2/10) (5/100)
        [("btc", [(0, 5), (1, 10)]), ("eth", [])]).getD 0
        ("", none, none, none, false)).2
      = (none, none, none, false) :=
  (((monthly_test_insufficient_data_marker (fun _ => 0) (fun _ _ => 0)
      (fun _ => 0) (2/10) (5/100)
      [("btc", [(0, 5), (1, 10)]), ("eth", [])]).2 0 (by decide)).2
    (by decide))
